import Mathlib

/-!
Verification of the conversation-history trimmer, crash-containment guard,
envelope formatter, retry decider, error classifier and skill registry/router
of this repository, as a shallow embedding in Lean.

Python strings are modelled as Lean `String`s, with slicing and `len`
expressed on the underlying character list (`String.data`), matching
Python's code-point semantics.  Python `dict`s of JSON-serialisable values
are modelled as association lists in insertion order.  Python `set`s of
strings are modelled as `Finset String`.
-/

namespace Tcmskd

/-! ### Data model: conversation turns (`langchain_core` message classes)

A turn is a `HumanMessage`, an `AIMessage` (carrying the list of its
tool-call identifiers, possibly empty), a `ToolMessage` (carrying the
identifier of the call it answers), or any other message kind.  Every turn
carries an optional stable identifier (`Msg.id`), `none` modelling a
Python `None` id. -/

inductive Msg where
  | human (id : Option String)
  | ai (id : Option String) (tool_calls : List String)
  | tool (id : Option String) (tool_call_id : String)
  | other (id : Option String)
deriving DecidableEq, Repr

def Msg.id : Msg → Option String
  | .human i => i
  | .ai i _ => i
  | .tool i _ => i
  | .other i => i

def Msg.isTool : Msg → Bool
  | .tool _ _ => true
  | _ => false

def Msg.isHuman : Msg → Bool
  | .human _ => true
  | _ => false

/-- A turn opens a round iff it is an `AIMessage` whose `tool_calls`
attribute is truthy, i.e. a nonempty list
(`isinstance(msg, AIMessage) and getattr(msg, "tool_calls", None)`). -/
def Msg.roundStart : Msg → Bool
  | .ai _ tcs => !tcs.isEmpty
  | _ => false

/-! ### `biomni/utils/message_trimmer.py` -/

def DEFAULT_MAX_ROUNDS : Nat := 10
def DEFAULT_MAX_TOTAL_CHARS : Nat := 40000
def DEFAULT_KEEP_FIRST_N_HUMAN : Nat := 1

/-- The inner collection loop of `build_remove_messages` step 1: walk a run
of consecutive `ToolMessage`s, keeping exactly those whose `tool_call_id`
is still in the pending id set, discarding each matched id
(`tool_call_ids.discard(...)`).  The pending Python `set` is modelled as a
duplicate-free list. -/
def matchedTools : List String → List Msg → List Msg
  | _, [] => []
  | ids, .tool mid tcid :: rest =>
      if tcid ∈ ids then .tool mid tcid :: matchedTools (ids.erase tcid) rest
      else matchedTools ids rest
  | ids, _ :: rest => matchedTools ids rest

theorem length_dropWhile_le (p : α → Bool) (l : List α) :
    (l.dropWhile p).length ≤ l.length := by
  induction l with
  | nil => simp [List.dropWhile]
  | cons a l ih =>
      rw [List.dropWhile]
      split
      · exact Nat.le_succ_of_le ih
      · exact Nat.le_refl _

/-- Step 1 of `build_remove_messages`: partition the history into rounds.
Each `AIMessage` with truthy `tool_calls` starts a round consisting of that
message plus the matching `ToolMessage`s of the maximal run of consecutive
`ToolMessage`s that follows it (the Python loop advances `i` over that
whole run, matched or not); every other message is skipped.  The Python
set comprehension over `msg.tool_calls` is modelled by `List.dedup`. -/
def findRounds : List Msg → List (List Msg)
  | [] => []
  | .ai mid tcs :: rest =>
      if tcs.isEmpty then findRounds rest
      else
        (.ai mid tcs :: matchedTools tcs.dedup (rest.takeWhile Msg.isTool))
          :: findRounds (rest.dropWhile Msg.isTool)
  | _ :: rest => findRounds rest
termination_by l => l.length
decreasing_by
  · simp only [List.length_cons]; omega
  · simp only [List.length_cons]
    exact Nat.lt_succ_of_le (length_dropWhile_le _ _)
  · simp only [List.length_cons]; omega

/-- Python `l[:-k]` for a nonnegative `k`: empty when `k = 0` (since
`-0 == 0`), otherwise the first `len(l) - k` elements. -/
def pySliceUptoNeg (l : List α) (k : Nat) : List α :=
  if k = 0 then [] else l.take (l.length - k)

/-- Step 2 of `build_remove_messages`:
`rounds[:-keep_rounds] if len(rounds) > keep_rounds else []`. -/
def roundsToDelete (rounds : List (List Msg)) (keep_rounds : Nat) :
    List (List Msg) :=
  if keep_rounds < rounds.length then pySliceUptoNeg rounds keep_rounds else []

/-- The non-null identifiers of the turns of one round (step 3 adds
`m.id` only when truthy). -/
def roundIds (r : List Msg) : List String := r.filterMap Msg.id

/-- Step 4 of `build_remove_messages`: the non-null identifiers of the
first `keep_first_n_human` `HumanMessage`s in document order. -/
def protected_ids (messages : List Msg) (keep_first_n_human : Nat) :
    List String :=
  ((messages.filter Msg.isHuman).take keep_first_n_human).filterMap Msg.id

/-- `build_remove_messages(messages, keep_rounds, keep_first_n_human)`.
The Python function returns `[RemoveMessage(id=i) for i in ids_to_delete]`
where `ids_to_delete` is a `set`; the result is modelled as that set of
identifiers (the list order of a Python set iteration is unspecified). -/
def build_remove_messages (messages : List Msg)
    (keep_rounds keep_first_n_human : Nat) : Finset String :=
  let rounds := findRounds messages
  let rounds_to_delete := roundsToDelete rounds keep_rounds
  if rounds_to_delete.isEmpty then ∅
  else
    let ids_to_delete : Finset String :=
      (rounds_to_delete.flatten.filterMap Msg.id).toFinset
    ids_to_delete \ (protected_ids messages keep_first_n_human).toFinset

/-- Whether a turn survives a batch of `RemoveMessage`s: a turn is removed
exactly when its identifier is in the deletion set; turns with a `None`
identifier never match a deletion marker. -/
def keepMsg (dels : Finset String) (m : Msg) : Bool :=
  match m.id with
  | some i => decide (i ∉ dels)
  | none => true

/-- The LangGraph `add_messages` reducer applied to a batch of
`RemoveMessage`s: every turn whose identifier is in the deletion set is
removed. -/
def apply_removals (messages : List Msg) (dels : Finset String) : List Msg :=
  messages.filter (keepMsg dels)

/-- The union of the non-null identifiers of the turns of a list of
rounds, as a set. -/
def roundIdsFinset (rs : List (List Msg)) : Finset String :=
  (rs.flatten.filterMap Msg.id).toFinset

/-! ### Wellformedness of histories (spec §3)

Per §3, turns have a stable identifier once created and identifiers are
never reused. -/

def allIdsSome (l : List Msg) : Prop := ∀ m ∈ l, (Msg.id m).isSome

def idsNodup (l : List Msg) : Prop := (l.map Msg.id).Nodup

instance (l : List Msg) : Decidable (allIdsSome l) := by
  unfold allIdsSome; infer_instance

instance (l : List Msg) : Decidable (idsNodup l) := by
  unfold idsNodup; infer_instance

/-- A round is complete when every distinct call identifier of its opening
directive has a matching collected result, expressed as a count equality:
the round holds the directive plus exactly one result per distinct call
id. -/
def roundComplete : List Msg → Prop
  | .ai _ tcs :: ts => ts.length = tcs.dedup.length
  | _ => True

def roundsComplete (l : List Msg) : Prop := ∀ r ∈ findRounds l, roundComplete r

instance : (r : List Msg) → Decidable (roundComplete r)
  | [] => by unfold roundComplete; infer_instance
  | .ai _ _ :: _ => by unfold roundComplete; infer_instance
  | .human _ :: _ => by unfold roundComplete; infer_instance
  | .tool _ _ :: _ => by unfold roundComplete; infer_instance
  | .other _ :: _ => by unfold roundComplete; infer_instance

instance (l : List Msg) : Decidable (roundsComplete l) := by
  unfold roundsComplete; infer_instance

/-! ### Structural lemmas about the round partition -/

theorem matchedTools_cons_not_tool (ids : List String) (m : Msg) (rest : List Msg)
    (h : ∀ mid tcid, m = Msg.tool mid tcid → False) :
    matchedTools ids (m :: rest) = matchedTools ids rest := by
  cases m with
  | tool mid tcid => exact absurd rfl (h mid tcid)
  | human i => rw [matchedTools]; exact h
  | ai i tcs => rw [matchedTools]; exact h
  | other i => rw [matchedTools]; exact h

theorem findRounds_cons_not_ai (m : Msg) (rest : List Msg)
    (h : ∀ mid tcs, m = Msg.ai mid tcs → False) :
    findRounds (m :: rest) = findRounds rest := by
  cases m with
  | ai mid tcs => exact absurd rfl (h mid tcs)
  | human i => rw [findRounds]; exact h
  | tool i t => rw [findRounds]; exact h
  | other i => rw [findRounds]; exact h

theorem matchedTools_sublist (ids : List String) (l : List Msg) :
    (matchedTools ids l).Sublist l := by
  induction l generalizing ids with
  | nil => simp [matchedTools]
  | cons m rest ih =>
    cases m with
    | tool mid tcid =>
      rw [matchedTools]
      split
      · exact (ih _).cons₂ _
      · exact (ih _).cons _
    | human i =>
      rw [matchedTools_cons_not_tool _ _ _ fun _ _ h => Msg.noConfusion h]
      exact (ih _).cons _
    | ai i tcs =>
      rw [matchedTools_cons_not_tool _ _ _ fun _ _ h => Msg.noConfusion h]
      exact (ih _).cons _
    | other i =>
      rw [matchedTools_cons_not_tool _ _ _ fun _ _ h => Msg.noConfusion h]
      exact (ih _).cons _

theorem matchedTools_isTool (ids : List String) (l : List Msg) :
    ∀ m ∈ matchedTools ids l, m.isTool = true := by
  induction l generalizing ids with
  | nil => simp [matchedTools]
  | cons m rest ih =>
    cases m with
    | tool mid tcid =>
      rw [matchedTools]
      split
      · intro x hx
        rcases List.mem_cons.mp hx with h | h
        · subst h; rfl
        · exact ih _ x h
      · exact ih _
    | human i =>
      rw [matchedTools_cons_not_tool _ _ _ fun _ _ h => Msg.noConfusion h]
      exact ih _
    | ai i tcs =>
      rw [matchedTools_cons_not_tool _ _ _ fun _ _ h => Msg.noConfusion h]
      exact ih _
    | other i =>
      rw [matchedTools_cons_not_tool _ _ _ fun _ _ h => Msg.noConfusion h]
      exact ih _

theorem findRounds_flatten_sublist (l : List Msg) :
    (findRounds l).flatten.Sublist l := by
  induction l using findRounds.induct with
  | case1 => simp [findRounds]
  | case2 mid tcs rest he ih =>
    rw [findRounds, if_pos he]
    exact ih.cons _
  | case3 mid tcs rest he ih =>
    rw [findRounds, if_neg he]
    simp only [List.flatten_cons, List.cons_append]
    refine List.Sublist.cons₂ _ ?_
    have hs : (matchedTools tcs.dedup (rest.takeWhile Msg.isTool) ++
        (findRounds (rest.dropWhile Msg.isTool)).flatten).Sublist
        (rest.takeWhile Msg.isTool ++ rest.dropWhile Msg.isTool) :=
      List.Sublist.append (matchedTools_sublist _ _) ih
    rwa [List.takeWhile_append_dropWhile] at hs
  | case4 head rest hne ih =>
    rw [findRounds_cons_not_ai head rest hne]
    exact ih.cons _

theorem findRounds_shape (l : List Msg) :
    ∀ r ∈ findRounds l, ∃ mid tcs ts, r = .ai mid tcs :: ts
      ∧ tcs.isEmpty = false ∧ ∀ m ∈ ts, m.isTool = true := by
  induction l using findRounds.induct with
  | case1 => simp [findRounds]
  | case2 mid tcs rest he ih => rw [findRounds, if_pos he]; exact ih
  | case3 mid tcs rest he ih =>
    rw [findRounds, if_neg he]
    intro r hr
    rcases List.mem_cons.mp hr with h | h
    · subst h
      exact ⟨mid, tcs, _, rfl, by simpa using he, matchedTools_isTool _ _⟩
    · exact ih r h
  | case4 head rest hne ih =>
    rw [findRounds_cons_not_ai head rest hne]; exact ih

theorem mem_findRounds_not_human (l : List Msg) :
    ∀ r ∈ findRounds l, ∀ m ∈ r, m.isHuman = false := by
  intro r hr m hm
  obtain ⟨mid, tcs, ts, rfl, -, hts⟩ := findRounds_shape l r hr
  rcases List.mem_cons.mp hm with h | h
  · subst h; rfl
  · have := hts m h
    cases m <;> simp_all [Msg.isTool, Msg.isHuman]

theorem findRounds_append_no_start (a b : List Msg)
    (h : ∀ m ∈ a, Msg.roundStart m = false) :
    findRounds (a ++ b) = findRounds b := by
  induction a with
  | nil => rfl
  | cons m a ih =>
    have hm := h m (List.mem_cons_self _ _)
    have ha : ∀ m ∈ a, Msg.roundStart m = false :=
      fun m hm' => h m (List.mem_cons_of_mem _ hm')
    cases m with
    | ai mid tcs =>
      have he : tcs.isEmpty = true := by
        simpa [Msg.roundStart] using hm
      rw [List.cons_append, findRounds, if_pos he]
      exact ih ha
    | human i =>
      rw [List.cons_append, findRounds_cons_not_ai _ _ fun _ _ h => Msg.noConfusion h]
      exact ih ha
    | tool i t =>
      rw [List.cons_append, findRounds_cons_not_ai _ _ fun _ _ h => Msg.noConfusion h]
      exact ih ha
    | other i =>
      rw [List.cons_append, findRounds_cons_not_ai _ _ fun _ _ h => Msg.noConfusion h]
      exact ih ha

theorem findRounds_decomp (l : List Msg) (r : List Msg) (rs : List (List Msg))
    (h : findRounds l = r :: rs) :
    ∃ p mid tcs rest, l = p ++ .ai mid tcs :: rest
      ∧ (∀ m ∈ p, Msg.roundStart m = false)
      ∧ tcs.isEmpty = false
      ∧ r = .ai mid tcs :: matchedTools tcs.dedup (rest.takeWhile Msg.isTool)
      ∧ rs = findRounds (rest.dropWhile Msg.isTool) := by
  induction l with
  | nil => simp [findRounds] at h
  | cons m rest ih =>
    cases m with
    | ai mid tcs =>
      by_cases he : tcs.isEmpty
      · rw [findRounds, if_pos he] at h
        obtain ⟨p, mid', tcs', rest', hl, hp, hne, hr, hrs⟩ := ih h
        refine ⟨.ai mid tcs :: p, mid', tcs', rest', by rw [hl]; rfl, ?_, hne, hr, hrs⟩
        intro m hm
        rcases List.mem_cons.mp hm with h' | h'
        · subst h'; simp [Msg.roundStart, he]
        · exact hp m h'
      · rw [findRounds, if_neg he] at h
        injection h with h1 h2
        exact ⟨[], mid, tcs, rest, rfl, by simp, by simpa using he, h1.symm, h2.symm⟩
    | human i =>
      rw [findRounds_cons_not_ai _ _ fun _ _ h => Msg.noConfusion h] at h
      obtain ⟨p, mid', tcs', rest', hl, hp, hne, hr, hrs⟩ := ih h
      refine ⟨.human i :: p, mid', tcs', rest', by rw [hl]; rfl, ?_, hne, hr, hrs⟩
      intro m hm
      rcases List.mem_cons.mp hm with h' | h'
      · subst h'; rfl
      · exact hp m h'
    | tool i t =>
      rw [findRounds_cons_not_ai _ _ fun _ _ h => Msg.noConfusion h] at h
      obtain ⟨p, mid', tcs', rest', hl, hp, hne, hr, hrs⟩ := ih h
      refine ⟨.tool i t :: p, mid', tcs', rest', by rw [hl]; rfl, ?_, hne, hr, hrs⟩
      intro m hm
      rcases List.mem_cons.mp hm with h' | h'
      · subst h'; rfl
      · exact hp m h'
    | other i =>
      rw [findRounds_cons_not_ai _ _ fun _ _ h => Msg.noConfusion h] at h
      obtain ⟨p, mid', tcs', rest', hl, hp, hne, hr, hrs⟩ := ih h
      refine ⟨.other i :: p, mid', tcs', rest', by rw [hl]; rfl, ?_, hne, hr, hrs⟩
      intro m hm
      rcases List.mem_cons.mp hm with h' | h'
      · subst h'; rfl
      · exact hp m h'

/-! ### Applying a deletion set to a history -/

theorem keepMsg_eq_false_iff (dels : Finset String) (m : Msg) :
    keepMsg dels m = false ↔ ∃ i, Msg.id m = some i ∧ i ∈ dels := by
  cases h : Msg.id m <;> simp [keepMsg, h]

theorem apply_removals_sublist (l : List Msg) (S : Finset String) :
    (apply_removals l S).Sublist l := List.filter_sublist _

theorem apply_removals_empty (l : List Msg) : apply_removals l ∅ = l := by
  apply List.filter_eq_self.mpr
  intro m _
  cases h : Msg.id m <;> simp [keepMsg, h]

theorem apply_removals_union (l : List Msg) (A B : Finset String) :
    apply_removals l (A ∪ B) = apply_removals (apply_removals l A) B := by
  rw [apply_removals, apply_removals, apply_removals, List.filter_filter]
  apply List.filter_congr
  intro m _
  cases h : Msg.id m with
  | none => simp [keepMsg, h]
  | some i =>
    by_cases hA : i ∈ A <;> by_cases hB : i ∈ B <;>
      simp [keepMsg, h, hA, hB]

theorem allIdsSome_sublist {l l' : List Msg} (hs : l'.Sublist l)
    (h : allIdsSome l) : allIdsSome l' :=
  fun m hm => h m (hs.subset hm)

theorem idsNodup_sublist {l l' : List Msg} (hs : l'.Sublist l)
    (h : idsNodup l) : idsNodup l' :=
  List.Nodup.sublist (hs.map Msg.id) h

/-- Deleting exactly the identifiers of the first round of a history
removes that round and nothing else, so the round partition of the result
is the tail of the original partition.  Requires the §3 invariants: all
identifiers non-null and never reused. -/
theorem findRounds_apply_head (l : List Msg) (r : List Msg) (rs : List (List Msg))
    (h1 : allIdsSome l) (h2 : idsNodup l) (h : findRounds l = r :: rs) :
    findRounds (apply_removals l (roundIds r).toFinset) = rs := by
  obtain ⟨p, mid, tcs, rest, hl, hp, hne, hr, hrs⟩ := findRounds_decomp l r rs h
  set tw := rest.takeWhile Msg.isTool with htw
  set dw := rest.dropWhile Msg.isTool with hdw
  set A : Msg := .ai mid tcs with hA
  set S : Finset String := (roundIds r).toFinset with hS
  have hrest : tw ++ dw = rest := List.takeWhile_append_dropWhile _ _
  have hrmem : ∀ m' ∈ r, m' ∈ A :: tw := by
    intro m' hm'
    rw [hr] at hm'
    rcases List.mem_cons.mp hm' with h' | h'
    · subst h'; exact List.mem_cons_self _ _
    · exact List.mem_cons_of_mem _ ((matchedTools_sublist _ _).subset h')
  have hidsplit : l.map Msg.id =
      (p.map Msg.id ++ (A :: tw).map Msg.id) ++ dw.map Msg.id := by
    rw [hl, ← hrest]
    simp [List.map_append]
  have hnodup : ((p.map Msg.id ++ (A :: tw).map Msg.id) ++ dw.map Msg.id).Nodup := by
    rw [← hidsplit]; exact h2
  have hdisj1 : (p.map Msg.id).Disjoint ((A :: tw).map Msg.id) :=
    (List.nodup_append.mp (List.nodup_append.mp hnodup).1).2.2
  have hdisj2 : ((p.map Msg.id ++ (A :: tw).map Msg.id)).Disjoint (dw.map Msg.id) :=
    (List.nodup_append.mp hnodup).2.2
  have hSmem : ∀ i ∈ S, some i ∈ (A :: tw).map Msg.id := by
    intro i hi
    rw [hS, List.mem_toFinset, roundIds, List.mem_filterMap] at hi
    obtain ⟨m', hm', hid⟩ := hi
    exact List.mem_map.mpr ⟨m', hrmem m' hm', hid⟩
  have hpF : p.filter (keepMsg S) = p := by
    apply List.filter_eq_self.mpr
    intro m hm
    by_contra hf
    rw [Bool.not_eq_true] at hf
    obtain ⟨i, hid, hiS⟩ := (keepMsg_eq_false_iff S m).mp hf
    exact hdisj1 (List.mem_map.mpr ⟨m, hm, hid⟩) (hSmem i hiS)
  have hdwF : dw.filter (keepMsg S) = dw := by
    apply List.filter_eq_self.mpr
    intro m hm
    by_contra hf
    rw [Bool.not_eq_true] at hf
    obtain ⟨i, hid, hiS⟩ := (keepMsg_eq_false_iff S m).mp hf
    exact hdisj2 (List.mem_append_right _ (hSmem i hiS))
      (List.mem_map.mpr ⟨m, hm, hid⟩)
  have hAid : ∃ iA, Msg.id A = some iA := by
    have hA_l : A ∈ l := by
      rw [hl]; exact List.mem_append_right _ (List.mem_cons_self _ _)
    have := h1 A hA_l
    cases hA' : Msg.id A with
    | none => rw [hA'] at this; simp at this
    | some iA => exact ⟨iA, rfl⟩
  obtain ⟨iA, hiA⟩ := hAid
  have hAF : keepMsg S A = false := by
    have hmemS : iA ∈ S := by
      rw [hS, List.mem_toFinset, roundIds, List.mem_filterMap]
      exact ⟨A, by rw [hr]; exact List.mem_cons_self _ _, hiA⟩
    simp [keepMsg, hiA, hmemS]
  have happly : apply_removals l S = (p ++ tw.filter (keepMsg S)) ++ dw := by
    rw [apply_removals, hl, ← hrest]
    rw [List.filter_append, hpF, List.filter_cons, hAF]
    simp only [if_neg Bool.false_ne_true, List.filter_append, hdwF,
      List.append_assoc]
  rw [happly, findRounds_append_no_start]
  · exact hrs.symm
  · intro m hm
    rcases List.mem_append.mp hm with h' | h'
    · exact hp m h'
    · have hmt : m.isTool = true :=
        List.mem_takeWhile_imp ((List.filter_sublist _).subset h')
      cases m <;> simp_all [Msg.isTool, Msg.roundStart]

theorem isEmpty_false_of_length_pos {α : Type _} {l : List α}
    (h : 0 < l.length) : l.isEmpty = false := by
  cases l with
  | nil => simp at h
  | cons a l => rfl

theorem mem_flatten_take {rs : List (List Msg)} {j : Nat} {m : Msg}
    (h : m ∈ (rs.take j).flatten) : m ∈ rs.flatten := by
  rw [List.mem_flatten] at h ⊢
  obtain ⟨r, hr, hm⟩ := h
  exact ⟨r, List.mem_of_mem_take hr, hm⟩

/-- Deleting the identifiers of the first `j` rounds drops exactly the
first `j` rounds from the round partition. -/
theorem findRounds_apply_take (l : List Msg) (h1 : allIdsSome l)
    (h2 : idsNodup l) (j : Nat) (hj : j ≤ (findRounds l).length) :
    findRounds (apply_removals l (roundIdsFinset ((findRounds l).take j))) =
      (findRounds l).drop j := by
  induction j with
  | zero =>
    simp only [List.take_zero, List.drop_zero]
    rw [show roundIdsFinset ([] : List (List Msg)) = ∅ from rfl,
      apply_removals_empty]
  | succ j ih =>
    have hj' : j < (findRounds l).length := by omega
    have hIH := ih (Nat.le_of_lt hj')
    have htake : (findRounds l).take (j + 1) =
        (findRounds l).take j ++ [(findRounds l)[j]] := by
      rw [List.take_succ, List.getElem?_eq_getElem hj']
      rfl
    have hun : roundIdsFinset ((findRounds l).take (j + 1)) =
        roundIdsFinset ((findRounds l).take j) ∪
          (roundIds ((findRounds l)[j])).toFinset := by
      rw [htake, roundIdsFinset, roundIdsFinset, List.flatten_append,
        List.filterMap_append, List.toFinset_append]
      simp [roundIds]
    rw [hun, apply_removals_union]
    have hdrop : (findRounds l).drop j =
        (findRounds l)[j] :: (findRounds l).drop (j + 1) :=
      List.drop_eq_getElem_cons hj'
    exact findRounds_apply_head _ _ _
      (allIdsSome_sublist (apply_removals_sublist _ _) h1)
      (idsNodup_sublist (apply_removals_sublist _ _) h2)
      (by rw [hIH, hdrop])

/-! ### The deletion set of `build_remove_messages` -/

theorem roundsToDelete_eq_take (rounds : List (List Msg)) (keep : Nat) :
    ∃ j, roundsToDelete rounds keep = rounds.take j := by
  by_cases ha : keep < rounds.length
  · by_cases hb : keep = 0
    · exact ⟨0, by simp [roundsToDelete, pySliceUptoNeg, ha, hb]⟩
    · exact ⟨rounds.length - keep,
        by simp [roundsToDelete, pySliceUptoNeg, ha, hb]⟩
  · exact ⟨0, by simp [roundsToDelete, ha]⟩

theorem build_eq_of_ne (l : List Msg) (keep kfh : Nat)
    (h : (roundsToDelete (findRounds l) keep).isEmpty = false) :
    build_remove_messages l keep kfh =
      roundIdsFinset (roundsToDelete (findRounds l) keep) \
        (protected_ids l kfh).toFinset := by
  rw [build_remove_messages]
  simp only [h, Bool.false_eq_true, if_false, roundIdsFinset]

theorem build_eq_empty (l : List Msg) (keep kfh : Nat)
    (h : (roundsToDelete (findRounds l) keep).isEmpty = true) :
    build_remove_messages l keep kfh = ∅ := by
  rw [build_remove_messages]
  simp only [h, if_true]

/-- A protected identifier (of one of the first `keep_first_n_human` user
turns) is never the identifier of any round member, because round members
are directive or tool-result turns and identifiers are never reused. -/
theorem protected_not_in_rounds (l : List Msg) (kfh : Nat)
    (h2 : idsNodup l) :
    ∀ i ∈ protected_ids l kfh, ∀ m ∈ (findRounds l).flatten,
      Msg.id m ≠ some i := by
  intro i hi m hm hid
  rw [protected_ids, List.mem_filterMap] at hi
  obtain ⟨hmsg, hhm, hhid⟩ := hi
  have hhfil : hmsg ∈ l.filter Msg.isHuman := List.mem_of_mem_take hhm
  have hh_l : hmsg ∈ l := (List.mem_filter.mp hhfil).1
  have hhuman : hmsg.isHuman = true := (List.mem_filter.mp hhfil).2
  have hm_l : m ∈ l := (findRounds_flatten_sublist l).subset hm
  have heq : hmsg = m :=
    List.inj_on_of_nodup_map h2 hh_l hm_l (by rw [hhid, hid])
  obtain ⟨r, hr, hmr⟩ := List.mem_flatten.mp hm
  have := mem_findRounds_not_human l r hr m hmr
  rw [← heq, hhuman] at this
  exact absurd this (by simp)

theorem build_eq_no_prot (l : List Msg) (keep kfh : Nat) (h2 : idsNodup l)
    (hne : (roundsToDelete (findRounds l) keep).isEmpty = false) :
    build_remove_messages l keep kfh =
      roundIdsFinset (roundsToDelete (findRounds l) keep) := by
  rw [build_eq_of_ne l keep kfh hne]
  apply sdiff_eq_self_iff_disjoint.mpr
  rw [Finset.disjoint_left]
  intro i hiP hiR
  rw [List.mem_toFinset] at hiP
  rw [roundIdsFinset, List.mem_toFinset, List.mem_filterMap] at hiR
  obtain ⟨m, hm, hmid⟩ := hiR
  obtain ⟨j, hj⟩ := roundsToDelete_eq_take (findRounds l) keep
  rw [hj] at hm
  exact protected_not_in_rounds l kfh h2 i hiP m (mem_flatten_take hm) hmid

/-- Every round's identifiers are entirely inside or entirely outside the
deletion set of `build_remove_messages` — the round-atomicity invariant. -/
theorem round_mem_cases (l : List Msg) (keep kfh : Nat)
    (h2 : idsNodup l) :
    ∀ r ∈ findRounds l,
      (∀ i ∈ roundIds r, i ∈ build_remove_messages l keep kfh) ∨
      (∀ i ∈ roundIds r, i ∉ build_remove_messages l keep kfh) := by
  intro r hr
  by_cases hrtd : (roundsToDelete (findRounds l) keep).isEmpty
  · right
    intro i _
    rw [build_eq_empty l keep kfh hrtd]
    exact Finset.not_mem_empty i
  · have hne : (roundsToDelete (findRounds l) keep).isEmpty = false := by
      simpa using hrtd
    obtain ⟨j, hj⟩ := roundsToDelete_eq_take (findRounds l) keep
    rw [build_eq_no_prot l keep kfh h2 hne, hj]
    have hnd : ((findRounds l).flatten.map Msg.id).Nodup :=
      List.Nodup.sublist ((findRounds_flatten_sublist l).map Msg.id) h2
    have hsplit : (findRounds l).flatten =
        ((findRounds l).take j).flatten ++ ((findRounds l).drop j).flatten := by
      rw [← List.flatten_append, List.take_append_drop]
    rw [hsplit, List.map_append] at hnd
    have hdisj := (List.nodup_append.mp hnd).2.2
    have hmem : r ∈ (findRounds l).take j ∨ r ∈ (findRounds l).drop j := by
      rw [← List.mem_append, List.take_append_drop]
      exact hr
    rcases hmem with hcase | hcase
    · left
      intro i hi
      rw [roundIds, List.mem_filterMap] at hi
      obtain ⟨m, hm, hmid⟩ := hi
      rw [roundIdsFinset, List.mem_toFinset, List.mem_filterMap]
      exact ⟨m, List.mem_flatten.mpr ⟨r, hcase, hm⟩, hmid⟩
    · right
      intro i hi hiD
      rw [roundIdsFinset, List.mem_toFinset, List.mem_filterMap] at hiD
      obtain ⟨m, hm, hmid⟩ := hiD
      rw [roundIds, List.mem_filterMap] at hi
      obtain ⟨m', hm', hmid'⟩ := hi
      exact hdisj (List.mem_map.mpr ⟨m, hm, hmid⟩)
        (List.mem_map.mpr ⟨m', List.mem_flatten.mpr ⟨r, hcase, hm'⟩, hmid'⟩)

/-! ### Claims C1, C2, C3 about the trimmer -/

/-- C1 (amended: `keep_rounds ≥ 1`): for every history in which every turn
carries a non-null stable identifier (never reused) and which contains `N`
complete rounds with `N > keep_rounds` and `keep_rounds ≥ 1`,
`build_remove_messages` returns the set of identifiers of the turns of the
oldest `N − keep_rounds` rounds minus the identifiers of the first
`keep_first_n_human` user turns in document order; the deletion set never
partially overlaps any single round's identifier set (so it is never a
strict nonempty subset of one, and never strictly cuts into one), and
turns not part of any round are never in it.  For `keep_rounds = 0` the
statement fails on the code, see `C1_keep_rounds_zero_counterexample`. -/
theorem C1_trimmer_deletion_set (l : List Msg) (keep kfh : Nat)
    (hk : 1 ≤ keep) (h1 : allIdsSome l) (h2 : idsNodup l)
    (hc : roundsComplete l) (hN : keep < (findRounds l).length) :
    build_remove_messages l keep kfh =
        roundIdsFinset ((findRounds l).take ((findRounds l).length - keep))
          \ (protected_ids l kfh).toFinset
      ∧ (∀ r ∈ findRounds l,
          (∀ i ∈ roundIds r, i ∈ build_remove_messages l keep kfh) ∨
          (∀ i ∈ roundIds r, i ∉ build_remove_messages l keep kfh))
      ∧ (∀ m ∈ l, m ∉ (findRounds l).flatten →
          ∀ i, Msg.id m = some i → i ∉ build_remove_messages l keep kfh) := by
  have hk0 : keep ≠ 0 := by omega
  have hrtd : roundsToDelete (findRounds l) keep =
      (findRounds l).take ((findRounds l).length - keep) := by
    simp [roundsToDelete, pySliceUptoNeg, hN, hk0]
  have hne : (roundsToDelete (findRounds l) keep).isEmpty = false := by
    rw [hrtd]
    apply isEmpty_false_of_length_pos
    rw [List.length_take]
    omega
  refine ⟨?_, round_mem_cases l keep kfh h2, ?_⟩
  · rw [build_eq_of_ne l keep kfh hne, hrtd]
  · intro m hm hnr i hid hiD
    rw [build_eq_of_ne l keep kfh hne, Finset.mem_sdiff, roundIdsFinset,
      List.mem_toFinset, List.mem_filterMap] at hiD
    obtain ⟨⟨m', hm', hmid'⟩, -⟩ := hiD
    rw [hrtd] at hm'
    have hm'fl : m' ∈ (findRounds l).flatten := mem_flatten_take hm'
    have heq : m = m' :=
      List.inj_on_of_nodup_map h2 hm
        ((findRounds_flatten_sublist l).subset hm'fl) (by rw [hid, hmid'])
    exact hnr (heq ▸ hm'fl)

/-- A one-round history exhibiting the `keep_rounds = 0` slicing bug. -/
def cexHistory : List Msg := [.ai (some "a1") ["c1"], .tool (some "t1") "c1"]

theorem findRounds_cexHistory :
    findRounds cexHistory = [[.ai (some "a1") ["c1"], .tool (some "t1") "c1"]] := by
  simp [cexHistory, findRounds, matchedTools, Msg.isTool,
    List.dedup_cons_of_not_mem, List.dedup_nil, List.takeWhile, List.dropWhile]

/-- C1 counterexample: with `keep_rounds = 0` the claim as stated fails.
`cexHistory` is a single complete round, all identifiers non-null and
distinct, and `N = 1 > 0 = keep_rounds`, yet the code deletes nothing
(`rounds[:-0]` is the empty slice in Python) while the claim demands the
whole round's identifiers. -/
theorem C1_keep_rounds_zero_counterexample :
    allIdsSome cexHistory
    ∧ idsNodup cexHistory
    ∧ roundsComplete cexHistory
    ∧ 0 < (findRounds cexHistory).length
    ∧ build_remove_messages cexHistory 0 0 ≠
        roundIdsFinset ((findRounds cexHistory).take
            ((findRounds cexHistory).length - 0))
          \ (protected_ids cexHistory 0).toFinset := by
  refine ⟨by decide, by decide, ?_, ?_, ?_⟩
  · simp only [roundsComplete, findRounds_cexHistory]
    decide
  · rw [findRounds_cexHistory]
    decide
  · simp only [build_remove_messages, findRounds_cexHistory]
    decide

/-- A concrete wellformed history used to witness the trimmer claims:
one protected user turn followed by three complete rounds. -/
def witHistory : List Msg :=
  [.human (some "h1"), .ai (some "a1") ["c1"], .tool (some "t1") "c1",
   .ai (some "a2") ["c2", "c3"], .tool (some "t2") "c2",
   .tool (some "t3") "c3", .ai (some "a3") ["c4"], .tool (some "t4") "c4"]

theorem findRounds_witHistory :
    findRounds witHistory =
      [[.ai (some "a1") ["c1"], .tool (some "t1") "c1"],
       [.ai (some "a2") ["c2", "c3"], .tool (some "t2") "c2",
        .tool (some "t3") "c3"],
       [.ai (some "a3") ["c4"], .tool (some "t4") "c4"]] := by
  simp [witHistory, findRounds, matchedTools, Msg.isTool,
    List.dedup_cons_of_not_mem, List.dedup_nil, List.takeWhile, List.dropWhile]

/-- Witness for `C1_trimmer_deletion_set` at a concrete history with
`keep_rounds = 1`, `keep_first_n_human = 1`. -/
theorem C1_trimmer_deletion_set_witness :
    allIdsSome witHistory ∧ idsNodup witHistory ∧ roundsComplete witHistory
    ∧ 1 < (findRounds witHistory).length
    ∧ build_remove_messages witHistory 1 1 =
        roundIdsFinset ((findRounds witHistory).take
            ((findRounds witHistory).length - 1))
          \ (protected_ids witHistory 1).toFinset :=
  ⟨by decide, by decide,
    by simp only [roundsComplete, findRounds_witHistory]; decide,
    by rw [findRounds_witHistory]; decide,
    (C1_trimmer_deletion_set witHistory 1 1 (by decide) (by decide) (by decide)
      (by simp only [roundsComplete, findRounds_witHistory]; decide)
      (by rw [findRounds_witHistory]; decide)).1⟩

/-- C2: the deletion set produced by `build_remove_messages` is
round-atomic for every configuration: any two turns of the same round are
either both deleted or both kept, under the §3 precondition that every
turn has a non-null identifier and identifiers are never reused.  In
particular the set never contains a directive turn's identifier without
all of its round's result-turn identifiers, nor conversely. -/
theorem C2_trimmer_round_atomic (l : List Msg) (keep kfh : Nat)
    (h1 : allIdsSome l) (h2 : idsNodup l) :
    ∀ r ∈ findRounds l, ∀ m ∈ r, ∀ m' ∈ r, ∀ i i',
      Msg.id m = some i → Msg.id m' = some i' →
      (i ∈ build_remove_messages l keep kfh ↔
        i' ∈ build_remove_messages l keep kfh) := by
  intro r hr m hm m' hm' i i' hi hi'
  have hmemi : i ∈ roundIds r := List.mem_filterMap.mpr ⟨m, hm, hi⟩
  have hmemi' : i' ∈ roundIds r := List.mem_filterMap.mpr ⟨m', hm', hi'⟩
  rcases round_mem_cases l keep kfh h2 r hr with hall | hnone
  · exact iff_of_true (hall i hmemi) (hall i' hmemi')
  · exact iff_of_false (hnone i hmemi) (hnone i' hmemi')

/-- Witness for `C2_trimmer_round_atomic`: in the concrete history the
directive turn `a1` and its paired result `t1` are both deleted with
`keep_rounds = 1`. -/
theorem C2_trimmer_round_atomic_witness :
    allIdsSome witHistory ∧ idsNodup witHistory ∧
    ("a1" ∈ build_remove_messages witHistory 1 1 ↔
      "t1" ∈ build_remove_messages witHistory 1 1) :=
  ⟨by decide, by decide,
    C2_trimmer_round_atomic witHistory 1 1 (by decide) (by decide)
      [.ai (some "a1") ["c1"], .tool (some "t1") "c1"]
      (by rw [findRounds_witHistory]; decide)
      (.ai (some "a1") ["c1"]) (by decide)
      (.tool (some "t1") "c1") (by decide)
      "a1" "t1" rfl rfl⟩

/-- C3: trimming is idempotent.  For every history satisfying the §3
identifier invariants (every turn has a non-null stable identifier, never
reused) and every configuration, applying the deletion set returned by
`build_remove_messages` and calling it again with the same configuration
yields the empty deletion set. -/
theorem C3_trimmer_idempotent (l : List Msg) (keep kfh : Nat)
    (h1 : allIdsSome l) (h2 : idsNodup l) :
    build_remove_messages
      (apply_removals l (build_remove_messages l keep kfh)) keep kfh = ∅ := by
  by_cases hrtd : (roundsToDelete (findRounds l) keep).isEmpty
  · rw [build_eq_empty l keep kfh hrtd, apply_removals_empty]
    exact build_eq_empty l keep kfh hrtd
  · have hne : (roundsToDelete (findRounds l) keep).isEmpty = false := by
      simpa using hrtd
    have hlt : keep < (findRounds l).length := by
      by_contra hc
      rw [roundsToDelete, if_neg hc] at hne
      simp at hne
    have hk0 : keep ≠ 0 := by
      intro h0
      rw [roundsToDelete, if_pos hlt, pySliceUptoNeg, if_pos h0] at hne
      simp at hne
    have hjle : (findRounds l).length - keep ≤ (findRounds l).length := by
      omega
    have hrtdeq : roundsToDelete (findRounds l) keep =
        (findRounds l).take ((findRounds l).length - keep) := by
      rw [roundsToDelete, if_pos hlt, pySliceUptoNeg, if_neg hk0]
    have hbuild : build_remove_messages l keep kfh =
        roundIdsFinset ((findRounds l).take ((findRounds l).length - keep)) := by
      rw [build_eq_no_prot l keep kfh h2 hne, hrtdeq]
    rw [hbuild]
    have hmain := findRounds_apply_take l h1 h2
      ((findRounds l).length - keep) hjle
    apply build_eq_empty
    rw [hmain, roundsToDelete, if_neg]
    · rfl
    · rw [List.length_drop]
      omega

/-- Witness for `C3_trimmer_idempotent` at the concrete history. -/
theorem C3_trimmer_idempotent_witness :
    allIdsSome witHistory ∧ idsNodup witHistory ∧
    build_remove_messages
      (apply_removals witHistory (build_remove_messages witHistory 1 1)) 1 1 = ∅ :=
  ⟨by decide, by decide,
    C3_trimmer_idempotent witHistory 1 1 (by decide) (by decide)⟩

/-! ### JSON-like Python values

`JValue` models the JSON-serialisable Python values that flow through the
Envelope pipeline: `None`, booleans, integers, strings, lists and dicts
(as association lists in insertion order). -/

inductive JValue where
  | null
  | bool (b : Bool)
  | num (n : Int)
  | str (s : String)
  | arr (xs : List JValue)
  | obj (kvs : List (String × JValue))

def JValue.isNull : JValue → Bool
  | .null => true
  | _ => false

/-- Python truthiness of a JSON-like value. -/
def JValue.truthy : JValue → Bool
  | .null => false
  | .bool b => b
  | .num n => decide (n ≠ 0)
  | .str s => !s.isEmpty
  | .arr xs => !xs.isEmpty
  | .obj kvs => !kvs.isEmpty

/-- First-match association-list lookup, modelling access to a Python
`dict` (whose keys are unique). -/
def jlookup : List (String × JValue) → String → Option JValue
  | [], _ => none
  | (k, v) :: kvs, key => if k = key then some v else jlookup kvs key

/-- `d.get(key, default)` on a dict given as an association list. -/
def jlookupD (kvs : List (String × JValue)) (key : String) (d : JValue) :
    JValue :=
  (jlookup kvs key).getD d

/-- Python `len` of a string counts code points. -/
def pyLen (s : String) : Nat := s.data.length

/-- Python `s[:n]` for `n ≥ 0`: the first `n` code points. -/
def pyTake (s : String) (n : Nat) : String := String.mk (s.data.take n)

def pyBool (b : Bool) : String := if b then "True" else "False"

/-! ### `json.dumps` (`ensure_ascii=False`, default separators) -/

def hexDigit (n : Nat) : Char :=
  if n < 10 then Char.ofNat (48 + n) else Char.ofNat (87 + n)

def uEscape (n : Nat) : String :=
  String.mk ['\\', 'u', hexDigit (n / 4096 % 16), hexDigit (n / 256 % 16),
    hexDigit (n / 16 % 16), hexDigit (n % 16)]

def escapeChar (c : Char) : String :=
  if c = '\\' then "\\\\"
  else if c = '"' then "\\\""
  else if c = '\n' then "\\n"
  else if c = '\t' then "\\t"
  else if c = '\r' then "\\r"
  else if c.toNat = 8 then "\\b"
  else if c.toNat = 12 then "\\f"
  else if c.toNat < 32 then uEscape c.toNat
  else String.singleton c

def escapeString (s : String) : String :=
  String.join (s.data.map escapeChar)

def jstr (s : String) : String := "\"" ++ escapeString s ++ "\""

mutual

def jdump : JValue → String
  | .null => "null"
  | .bool true => "true"
  | .bool false => "false"
  | .num n => toString n
  | .str s => jstr s
  | .arr xs => "[" ++ String.intercalate ", " (jdumpList xs) ++ "]"
  | .obj kvs => "\x7b" ++ String.intercalate ", " (jdumpObj kvs) ++ "\x7d"

def jdumpList : List JValue → List String
  | [] => []
  | x :: xs => jdump x :: jdumpList xs

def jdumpObj : List (String × JValue) → List String
  | [] => []
  | (k, v) :: kvs => (jstr k ++ ": " ++ jdump v) :: jdumpObj kvs

end

mutual

/-- Python `repr` of a JSON-like value. -/
def pyRepr : JValue → String
  | .null => "None"
  | .bool true => "True"
  | .bool false => "False"
  | .num n => toString n
  | .str s => "\x27" ++ s ++ "\x27"
  | .arr xs => "[" ++ String.intercalate ", " (pyReprList xs) ++ "]"
  | .obj kvs => "\x7b" ++ String.intercalate ", " (pyReprObj kvs) ++ "\x7d"

def pyReprList : List JValue → List String
  | [] => []
  | x :: xs => pyRepr x :: pyReprList xs

def pyReprObj : List (String × JValue) → List String
  | [] => []
  | (k, v) :: kvs => ("\x27" ++ k ++ "\x27: " ++ pyRepr v) :: pyReprObj kvs

end

/-- Python `str` of a JSON-like value (identity on strings, `repr`
otherwise). -/
def pyStrOfJ : JValue → String
  | .str s => s
  | .null => "None"
  | .bool b => pyBool b
  | .num n => toString n
  | .arr xs => pyRepr (.arr xs)
  | .obj kvs => pyRepr (.obj kvs)

/-! ### `biomni/utils/tool_message_formatter.py` -/

def MAX_CONTENT_CHARS : Nat := 10000

/-- `TRUNCATION_NOTICE.format(limit=limit)`. -/
def TRUNCATION_NOTICE (limit : Nat) : String :=
  "\n\n... [内容已截断，超出 " ++ toString limit ++
    " 字符限制。完整内容请通过 artifacts 引用获取] ..."

/-- `_truncate(content)`: identity within budget, otherwise a code-point
prefix of length `MAX_CONTENT_CHARS - len(notice)` followed by the
notice. -/
def _truncate (content : String) : String :=
  if pyLen content ≤ MAX_CONTENT_CHARS then content
  else
    pyTake content
        (MAX_CONTENT_CHARS - pyLen (TRUNCATION_NOTICE MAX_CONTENT_CHARS)) ++
      TRUNCATION_NOTICE MAX_CONTENT_CHARS

/-- `_build_payload_from_summary(summary, outputs)`.  `summary.get` raises
`AttributeError` when `summary` is not a dict; the `Except` error models
that exception.  `outputs` is already known to be a dict in the caller,
and is passed as its association list. -/
def _build_payload_from_summary (summary : JValue)
    (okvs : List (String × JValue)) : Except Unit JValue :=
  match summary with
  | .obj skvs =>
    let base : List (String × JValue) :=
      [("status", jlookupD okvs "status" (.str "ok")),
       ("result_brief", jlookupD skvs "result_brief" .null),
       ("structured_data", jlookupD skvs "structured_data" .null),
       ("artifact_refs", jlookupD skvs "artifact_refs" (.arr [])),
       ("next_step_hint", jlookupD skvs "next_step_hint" .null)]
    let error_brief := jlookupD skvs "error_brief" .null
    let withEb :=
      if error_brief.truthy then base ++ [("error_brief", error_brief)]
      else base
    let top_error := jlookupD okvs "error" .null
    let withErr :=
      if top_error.truthy then withEb ++ [("error", top_error)] else withEb
    Except.ok (.obj (withErr.filter fun kv => !kv.2.isNull))
  | _ => Except.error ()

/-- The serialisation step of `format_skill_output_to_string`, without the
final hard truncation: `str(envelope)` for a non-dict envelope, otherwise
the `json.dumps` of the payload built from `summary_for_llm` when present
and non-null, else of the raw outputs minus `full_log`.  The `Except`
error is the `AttributeError` Python raises when `outputs` (or
`summary_for_llm`) is present but not a dict. -/
def format_core (envelope : JValue) : Except Unit String :=
  match envelope with
  | .obj ekvs =>
    match jlookupD ekvs "outputs" (.obj []) with
    | .obj okvs =>
      match jlookup okvs "summary_for_llm" with
      | some summary =>
        if summary.isNull then
          Except.ok (jdump (.obj (okvs.filter fun kv => kv.1 != "full_log")))
        else
          (_build_payload_from_summary summary okvs).map jdump
      | none =>
        Except.ok (jdump (.obj (okvs.filter fun kv => kv.1 != "full_log")))
    | _ => Except.error ()
  | v => Except.ok (pyStrOfJ v)

/-- `format_skill_output_to_string(envelope)`: serialise once, then hard
truncate.  In this embedding every value is JSON-serialisable, so the
`except (TypeError, ValueError)` degradation to `str(payload)` is
unreachable and not modelled; the function is pure, hence deterministic. -/
def format_skill_output_to_string (envelope : JValue) : Except Unit String :=
  (format_core envelope).map _truncate

/-! ### `biomni/agent/nodes/execute_node.py` -/

/-- Python exception classes relevant to the guard.  `otherError` covers
every other `Exception` subclass (carrying its type name);
`systemExit`/`keyboardInterrupt` derive from `BaseException` only. -/
inductive PyExc where
  | memoryError (msg : String)
  | timeoutError (msg : String)
  | otherError (typeName msg : String)
  | systemExit (msg : String)
  | keyboardInterrupt (msg : String)
deriving DecidableEq, Repr

def PyExc.typeName : PyExc → String
  | .memoryError _ => "MemoryError"
  | .timeoutError _ => "TimeoutError"
  | .otherError n _ => n
  | .systemExit _ => "SystemExit"
  | .keyboardInterrupt _ => "KeyboardInterrupt"

def PyExc.message : PyExc → String
  | .memoryError m => m
  | .timeoutError m => m
  | .otherError _ m => m
  | .systemExit m => m
  | .keyboardInterrupt m => m

/-- `SystemExit` and `KeyboardInterrupt` derive from `BaseException`, not
`Exception`, so `except Exception` does not intercept them. -/
def PyExc.isTermination : PyExc → Bool
  | .systemExit _ => true
  | .keyboardInterrupt _ => true
  | _ => false

/-- `_make_crash_envelope(...)`: the Envelope dict literal of the source,
with `_now_iso()` passed in as `now`. -/
def _make_crash_envelope (skill_name error_code : String) (exception : PyExc)
    (traceback_str : String) (retryable : Bool)
    (plan_correction_hint : String) (now : String) : JValue :=
  let short_msg := exception.typeName ++ ": " ++ exception.message
  .obj [("outputs", .obj [
    ("status", .str "error"),
    ("summary_for_llm", .obj [
      ("result_brief", .null),
      ("structured_data", .null),
      ("artifact_refs", .arr []),
      ("next_step_hint", .null),
      ("error_brief", .str ("工具 " ++ skill_name ++ " 执行崩溃（" ++
        error_code ++ "）：" ++ short_msg ++ "。" ++ plan_correction_hint))]),
    ("full_log", .obj [
      ("research_log", .arr [.obj [
        ("t", .str now),
        ("stage", .str "warn"),
        ("message", .str ("[" ++ skill_name ++ "] EXECUTION_CRASH 捕获，error_code=" ++
          error_code ++ "，exception=" ++ short_msg ++
          "，traceback（前 2000 字符）=" ++ pyTake traceback_str 2000))]]),
      ("artifacts", .arr []),
      ("provenance", .arr [])]),
    ("error", .obj [
      ("code", .str error_code),
      ("message", .str short_msg),
      ("retryable", .bool retryable),
      ("mitigation", .str plan_correction_hint),
      ("fallback_action",
        .str (if retryable then "retry_with_plan_correction" else "human_review")),
      ("plan_correction_hint", .str plan_correction_hint)])])]

structure ToolMessage where
  content : String
  tool_call_id : String
  name : String

/-- The dict returned by `execute_skill`: the `ToolMessage` plus audit
fields.  `namespace_delta` and `error` are `some` exactly when the Python
dict carries the key (added only when truthy). -/
structure ExecResult where
  messages : List ToolMessage
  research_log : List JValue
  artifacts : List JValue
  provenance : List JValue
  status : JValue
  namespace_delta : Option JValue
  error : Option JValue

/-- Python `list(x)` on the values reachable in envelope extraction:
lists copy, strings iterate code points, dicts iterate keys; other values
raise `TypeError`. -/
def pyList : JValue → Except Unit (List JValue)
  | .arr xs => .ok xs
  | .str s => .ok (s.data.map fun c => .str (String.singleton c))
  | .obj kvs => .ok (kvs.map fun kv => .str kv.1)
  | _ => .error ()

/-- `execute_skill` (Fix-I).  The runner outcome is passed explicitly:
`.ok env` models `run_skill` returning `env`, `.error e` models the
exception it raises.  `now` stands for the `_now_iso()` timestamps and
`traceback_str` for `traceback.format_exc()` (state passed explicitly).
A returned `.error` models an exception escaping `execute_skill`: a
termination signal from the runner, or the `AttributeError`/`TypeError`
the extraction code after the `try` block raises on malformed
envelopes. -/
def execute_skill (tool_call_id skill_name : String)
    (runner_result : Except PyExc JValue) (now traceback_str : String) :
    Except PyExc ExecResult :=
  let contained : Except PyExc JValue :=
    match runner_result with
    | .ok env => .ok env
    | .error (.memoryError m) =>
        .ok (_make_crash_envelope skill_name "EXECUTION_OOM"
          (.memoryError m) traceback_str true
          ("工具 " ++ skill_name ++
            " 执行时内存溢出（MemoryError）。建议：减少输入数据规模（如降低 limit 参数或拆分批次）后重试。")
          now)
    | .error (.timeoutError m) =>
        .ok (_make_crash_envelope skill_name "EXECUTION_TIMEOUT"
          (.timeoutError m) traceback_str true
          ("工具 " ++ skill_name ++ " 执行超时。建议：减少输入数据规模或拆分为多个子任务后重试。")
          now)
    | .error (.otherError n m) =>
        .ok (_make_crash_envelope skill_name "EXECUTION_CRASH"
          (.otherError n m) traceback_str false
          ("工具 " ++ skill_name ++ " 在执行时崩溃（" ++ n ++ ": " ++ m ++
            "）。这通常是工具代码的 Bug，建议跳过此工具并尝试替代方案，或报告给工程团队修复后再使用。")
          now)
    | .error e => .error e
  match contained with
  | .error e => .error e
  | .ok skill_output =>
    match format_skill_output_to_string skill_output with
    | .error _ => .error (.otherError "AttributeError" "")
    | .ok content_str =>
      let tm : ToolMessage := ⟨content_str, tool_call_id, skill_name⟩
      match skill_output with
      | .obj ekvs =>
        match jlookupD ekvs "outputs" (.obj []) with
        | .obj okvs =>
          match jlookupD okvs "full_log" (.obj []) with
          | .obj flkvs =>
            match pyList (jlookupD flkvs "research_log" (.arr [])),
                pyList (jlookupD flkvs "artifacts" (.arr [])),
                pyList (jlookupD flkvs "provenance" (.arr [])) with
            | .ok new_logs, .ok new_arts, .ok new_prov =>
              let ns_delta := jlookup flkvs "namespace_delta"
              let status := jlookupD okvs "status" (.str "ok")
              let error := jlookup okvs "error"
              let entry : JValue := .obj
                [("t", .str now),
                 ("stage", .str "tool_message_formatted"),
                 ("message", .str ("[" ++ skill_name ++
                   "] ToolMessage 生成完毕，tool_call_id=" ++ tool_call_id ++
                   "，content_len=" ++ toString (pyLen content_str) ++
                   "，truncated=" ++ pyBool (decide (pyLen content_str ≥ 10000)) ++
                   "，status=" ++ pyStrOfJ status))]
              .ok ⟨[tm], new_logs ++ [entry], new_arts, new_prov, status,
                (match ns_delta with
                 | some v => if v.truthy then some v else none
                 | none => none),
                (match error with
                 | some v => if v.truthy then some v else none
                 | none => none)⟩
            | _, _, _ => .error (.otherError "TypeError" "")
          | _ => .error (.otherError "AttributeError" "")
        | _ => .error (.otherError "AttributeError" "")
      | _ => .error (.otherError "AttributeError" "")

/-! ### Length bounds for the formatter -/

theorem pyLen_append (a b : String) : pyLen (a ++ b) = pyLen a + pyLen b := by
  simp [pyLen, String.data_append]

theorem pyLen_pyTake (s : String) (n : Nat) :
    pyLen (pyTake s n) = min n (pyLen s) := by
  simp [pyLen, pyTake]

theorem pyLen_notice : pyLen (TRUNCATION_NOTICE MAX_CONTENT_CHARS) = 54 := by
  decide

/-- `_truncate` always returns at most `MAX_CONTENT_CHARS` code points. -/
theorem _truncate_le (s : String) :
    pyLen (_truncate s) ≤ MAX_CONTENT_CHARS := by
  rw [_truncate]
  split
  · assumption
  · rw [pyLen_append, pyLen_pyTake, pyLen_notice]
    have : MAX_CONTENT_CHARS = 10000 := rfl
    omega

/-- Over budget, `_truncate` is a code-point-aligned prefix followed by the
fixed truncation notice. -/
theorem _truncate_of_gt (s : String) (h : MAX_CONTENT_CHARS < pyLen s) :
    _truncate s =
      pyTake s (MAX_CONTENT_CHARS - pyLen (TRUNCATION_NOTICE MAX_CONTENT_CHARS))
        ++ TRUNCATION_NOTICE MAX_CONTENT_CHARS := by
  rw [_truncate, if_neg (by omega)]

/-! ### Claims C4, C5, C6 about the guard and the formatter -/

/-- C6: for every envelope whose serialisation step succeeds (the
`AttributeError` cases of a malformed `outputs`/`summary_for_llm` aside),
the formatted string is the hard truncation of the serialised form, has at
most 10,000 characters, and — whenever the serialised form exceeds
10,000 characters — equals a code-point prefix of it followed by the fixed
truncation notice (which states the limit and points at artifact
references).  Determinism and cut-point safety are inherent to the
embedding: the formatter is a pure function and slicing is performed on
whole code points, as in Python. -/
theorem C6_formatter_budget (envelope : JValue) (s0 : String)
    (h : format_core envelope = .ok s0) :
    format_skill_output_to_string envelope = .ok (_truncate s0)
    ∧ pyLen (_truncate s0) ≤ MAX_CONTENT_CHARS
    ∧ (MAX_CONTENT_CHARS < pyLen s0 →
        _truncate s0 =
          pyTake s0 (MAX_CONTENT_CHARS -
              pyLen (TRUNCATION_NOTICE MAX_CONTENT_CHARS)) ++
            TRUNCATION_NOTICE MAX_CONTENT_CHARS) :=
  ⟨by rw [format_skill_output_to_string, h]; rfl,
   _truncate_le s0,
   fun hgt => _truncate_of_gt s0 hgt⟩

/-- Witness for `C6_formatter_budget`: a non-dict envelope of 10,050
characters, exercising the truncation branch. -/
theorem C6_formatter_budget_witness :
    format_core (.str (String.mk (List.replicate 10050 'a'))) =
      .ok (String.mk (List.replicate 10050 'a'))
    ∧ pyLen (_truncate (String.mk (List.replicate 10050 'a'))) ≤
        MAX_CONTENT_CHARS
    ∧ _truncate (String.mk (List.replicate 10050 'a')) =
        pyTake (String.mk (List.replicate 10050 'a'))
            (MAX_CONTENT_CHARS - pyLen (TRUNCATION_NOTICE MAX_CONTENT_CHARS))
          ++ TRUNCATION_NOTICE MAX_CONTENT_CHARS := by
  have hlen : MAX_CONTENT_CHARS < pyLen (String.mk (List.replicate 10050 'a')) := by
    show MAX_CONTENT_CHARS < (List.replicate 10050 'a').length
    rw [List.length_replicate]
    decide
  have h := C6_formatter_budget (.str (String.mk (List.replicate 10050 'a')))
    (String.mk (List.replicate 10050 'a')) rfl
  exact ⟨rfl, h.2.1, h.2.2 hlen⟩

set_option maxHeartbeats 2000000 in
set_option maxRecDepth 4000 in
/-- C4: the guard never propagates a runner failure other than the two
process-termination signals; every intercepted failure yields a result
whose extracted status is the envelope's `outputs.status = "error"`, whose
`error` object carries a non-null string `code`, and whose single
`ToolMessage` carries the issued `tool_call_id` with content within the
10,000-character budget.  `SystemExit` and `KeyboardInterrupt` propagate
unchanged. -/
theorem C4_guard_containment (tool_call_id skill_name : String) (e : PyExc)
    (now traceback_str : String) :
    (e.isTermination = true →
      execute_skill tool_call_id skill_name (.error e) now traceback_str =
        .error e)
    ∧ (e.isTermination = false →
        ∃ res : ExecResult,
          execute_skill tool_call_id skill_name (.error e) now traceback_str =
            .ok res
          ∧ res.status = .str "error"
          ∧ (∃ er code, res.error = some (.obj er) ∧
              jlookup er "code" = some (.str code))
          ∧ res.messages.map ToolMessage.tool_call_id = [tool_call_id]
          ∧ ∀ t ∈ res.messages, pyLen t.content ≤ MAX_CONTENT_CHARS) := by
  cases e with
  | systemExit m =>
    exact ⟨fun _ => rfl, fun h => by simp [PyExc.isTermination] at h⟩
  | keyboardInterrupt m =>
    exact ⟨fun _ => rfl, fun h => by simp [PyExc.isTermination] at h⟩
  | memoryError m =>
    refine ⟨fun h => by simp [PyExc.isTermination] at h, fun _ => ?_⟩
    refine ⟨_, rfl, rfl, ⟨_, "EXECUTION_OOM", rfl, rfl⟩, rfl, ?_⟩
    intro t ht
    rw [List.mem_singleton] at ht
    subst ht
    exact _truncate_le _
  | timeoutError m =>
    refine ⟨fun h => by simp [PyExc.isTermination] at h, fun _ => ?_⟩
    refine ⟨_, rfl, rfl, ⟨_, "EXECUTION_TIMEOUT", rfl, rfl⟩, rfl, ?_⟩
    intro t ht
    rw [List.mem_singleton] at ht
    subst ht
    exact _truncate_le _
  | otherError n m =>
    refine ⟨fun h => by simp [PyExc.isTermination] at h, fun _ => ?_⟩
    refine ⟨_, rfl, rfl, ⟨_, "EXECUTION_CRASH", rfl, rfl⟩, rfl, ?_⟩
    intro t ht
    rw [List.mem_singleton] at ht
    subst ht
    exact _truncate_le _

/-- Witness for `C4_guard_containment` at a concrete non-termination
exception. -/
theorem C4_guard_containment_witness :
    (PyExc.otherError "ValueError" "boom").isTermination = false
    ∧ ∃ res : ExecResult,
        execute_skill "call_7" "tcm.analysis.demo"
            (.error (.otherError "ValueError" "boom")) "T0" "TB" = .ok res
        ∧ res.status = .str "error"
        ∧ (∃ er code, res.error = some (.obj er) ∧
            jlookup er "code" = some (.str code))
        ∧ res.messages.map ToolMessage.tool_call_id = ["call_7"]
        ∧ ∀ t ∈ res.messages, pyLen t.content ≤ MAX_CONTENT_CHARS :=
  ⟨rfl,
    (C4_guard_containment "call_7" "tcm.analysis.demo"
      (.otherError "ValueError" "boom") "T0" "TB").2 rfl⟩

set_option maxHeartbeats 2000000 in
set_option maxRecDepth 4000 in
/-- C5: the guard's three interception classes.  A `MemoryError` yields
`EXECUTION_OOM` with `retryable = true` and
`fallback_action = "retry_with_plan_correction"`; a `TimeoutError` yields
`EXECUTION_TIMEOUT` with `retryable = true`; any other `Exception` yields
`EXECUTION_CRASH` with `retryable = false` and
`fallback_action = "human_review"`. -/
theorem C5_guard_error_taxonomy (tool_call_id skill_name m n nm : String)
    (now tb : String) :
    (∃ res er, execute_skill tool_call_id skill_name
          (.error (.memoryError m)) now tb = .ok res
        ∧ res.error = some (.obj er)
        ∧ jlookup er "code" = some (.str "EXECUTION_OOM")
        ∧ jlookup er "retryable" = some (.bool true)
        ∧ jlookup er "fallback_action" =
            some (.str "retry_with_plan_correction"))
    ∧ (∃ res er, execute_skill tool_call_id skill_name
          (.error (.timeoutError m)) now tb = .ok res
        ∧ res.error = some (.obj er)
        ∧ jlookup er "code" = some (.str "EXECUTION_TIMEOUT")
        ∧ jlookup er "retryable" = some (.bool true))
    ∧ (∃ res er, execute_skill tool_call_id skill_name
          (.error (.otherError nm n)) now tb = .ok res
        ∧ res.error = some (.obj er)
        ∧ jlookup er "code" = some (.str "EXECUTION_CRASH")
        ∧ jlookup er "retryable" = some (.bool false)
        ∧ jlookup er "fallback_action" = some (.str "human_review")) :=
  ⟨⟨_, _, rfl, rfl, rfl, rfl, rfl⟩,
   ⟨_, _, rfl, rfl, rfl, rfl⟩,
   ⟨_, _, rfl, rfl, rfl, rfl, rfl⟩⟩

/-! ### `biomni/agent/nodes/retry_decider.py` -/

def MAX_RETRIES : Nat := 3

/-- The audit-log entry `decide_retry` appends. -/
def retryLog (now decision reason : String) : JValue :=
  .obj [("t", .str now), ("stage", .str "retry_decider"),
        ("message", .str ("[RetryDecider] decision=" ++ decision ++
          "，reason=" ++ reason))]

/-- The dict returned by `decide_retry`: `retry_count = some n` models the
presence of the `"_retry_count"` key with value `n` in the update. -/
structure RetryUpdate where
  status : String
  research_log : List JValue
  retry_count : Option Nat

/-- `decide_retry(state)` with the relevant state fields passed
explicitly: `error` is `state.get("error")` (`none` when the key is
absent) as an association list, `retry_count` is
`state.get("_retry_count", 0)`, and `now` stands for `_now_iso()`.  The
decision is encoded in the returned update exactly as in the source:
`end` (no error) returns status `"ok"` and no counter key, `escalate`
returns status `"error"` and no counter key, `retry` returns status
`"retrying"` and the counter incremented by exactly one. -/
def decide_retry (error : Option (List (String × JValue)))
    (retry_count : Nat) (now : String) : RetryUpdate :=
  match error with
  | none => ⟨"ok", [], none⟩
  | some kvs =>
    if kvs.isEmpty then ⟨"ok", [], none⟩
    else
      let retryable := (jlookupD kvs "retryable" (.bool false)).truthy
      if !retryable then
        ⟨"error",
         [retryLog now "escalate"
           ("错误 " ++ pyStrOfJ (jlookupD kvs "code" .null) ++ " 不可重试，转为人工处理")],
         none⟩
      else if retry_count ≥ MAX_RETRIES then
        ⟨"error",
         [retryLog now "escalate"
           ("已重试 " ++ toString retry_count ++ " 次，超过最大重试次数 " ++
             toString MAX_RETRIES ++ "，转为人工处理")],
         none⟩
      else
        ⟨"retrying",
         [retryLog now "retry"
           ("错误 " ++ pyStrOfJ (jlookupD kvs "code" .null) ++ " 可重试（第 " ++
             toString (retry_count + 1) ++ " 次 / 最多 " ++ toString MAX_RETRIES ++
             " 次）。建议：" ++
             pyStrOfJ (jlookupD kvs "plan_correction_hint"
               (.str "请参考错误信息调整参数重试")))],
         some (retry_count + 1)⟩

/-- Python `if not error:` — absent or falsy (empty dict). -/
def errPresent (error : Option (List (String × JValue))) : Bool :=
  match error with
  | none => false
  | some kvs => !kvs.isEmpty

/-- `error.get("retryable", False)` truthiness. -/
def errRetryable (kvs : List (String × JValue)) : Bool :=
  (jlookupD kvs "retryable" (.bool false)).truthy

/-- C7: the ordered transition rules of the Retry Decider.  No error
(absent or falsy) decides `end` (status `"ok"`), a non-retryable error
decides `escalate` (status `"error"`), a retryable error with counter at
or above the ceiling of 3 decides `escalate`, otherwise `retry` (status
`"retrying"`) with the counter incremented by exactly one; `escalate` and
`end` never touch the counter, and a counter at the ceiling forces
`escalate` regardless of the retryable flag whenever an error is
present. -/
theorem C7_retry_decider (error : Option (List (String × JValue)))
    (retry_count : Nat) (now : String) :
    (errPresent error = false →
      (decide_retry error retry_count now).status = "ok" ∧
      (decide_retry error retry_count now).retry_count = none)
    ∧ (∀ kvs, error = some kvs → errPresent error = true →
        errRetryable kvs = false →
        (decide_retry error retry_count now).status = "error" ∧
        (decide_retry error retry_count now).retry_count = none)
    ∧ (∀ kvs, error = some kvs → errPresent error = true →
        MAX_RETRIES ≤ retry_count →
        (decide_retry error retry_count now).status = "error" ∧
        (decide_retry error retry_count now).retry_count = none)
    ∧ (∀ kvs, error = some kvs → errPresent error = true →
        errRetryable kvs = true → retry_count < MAX_RETRIES →
        (decide_retry error retry_count now).status = "retrying" ∧
        (decide_retry error retry_count now).retry_count =
          some (retry_count + 1)) := by
  refine ⟨?_, ?_, ?_, ?_⟩
  · intro h
    match error with
    | none => exact ⟨rfl, rfl⟩
    | some kvs =>
      have he : kvs.isEmpty = true := by
        simpa [errPresent] using h
      rw [decide_retry]
      rw [if_pos he]
      exact ⟨rfl, rfl⟩
  · rintro kvs rfl h hr
    have he : kvs.isEmpty = false := by
      simpa [errPresent] using h
    rw [decide_retry, if_neg (by simp [he])]
    simp only [errRetryable] at hr
    rw [if_pos (by simp [hr])]
    exact ⟨rfl, rfl⟩
  · rintro kvs rfl h hc
    have he : kvs.isEmpty = false := by
      simpa [errPresent] using h
    rw [decide_retry, if_neg (by simp [he])]
    by_cases hr : (jlookupD kvs "retryable" (.bool false)).truthy
    · rw [if_neg (by simp [hr]), if_pos hc]
      exact ⟨rfl, rfl⟩
    · rw [if_pos (by simpa using hr)]
      exact ⟨rfl, rfl⟩
  · rintro kvs rfl h hr hc
    have he : kvs.isEmpty = false := by
      simpa [errPresent] using h
    rw [decide_retry, if_neg (by simp [he])]
    simp only [errRetryable] at hr
    rw [if_neg (by simp [hr]), if_neg (by omega)]
    exact ⟨rfl, rfl⟩

/-- Witness for `C7_retry_decider`: a retryable error with counter 0
decides `retry` and increments the counter to 1. -/
theorem C7_retry_decider_witness :
    errPresent (some [("code", .str "EXECUTION_OOM"),
        ("retryable", .bool true)]) = true
    ∧ errRetryable [("code", .str "EXECUTION_OOM"),
        ("retryable", .bool true)] = true
    ∧ 0 < MAX_RETRIES
    ∧ (decide_retry (some [("code", .str "EXECUTION_OOM"),
        ("retryable", .bool true)]) 0 "T0").status = "retrying"
    ∧ (decide_retry (some [("code", .str "EXECUTION_OOM"),
        ("retryable", .bool true)]) 0 "T0").retry_count = some 1 := by
  refine ⟨rfl, rfl, by decide, ?_⟩
  exact (C7_retry_decider (some [("code", .str "EXECUTION_OOM"),
    ("retryable", .bool true)]) 0 "T0").2.2.2 _ rfl rfl rfl (by decide)

/-! ### `biomni/agent/nodes/error_classifier.py` -/

structure ErrorCategory where
  category : String
  severity : String
  retryable : Bool
deriving DecidableEq, Repr

/-- The `ERROR_CATEGORIES` taxonomy table mapping each error code to its
category, severity and default retryability. -/
def ERROR_CATEGORIES : List (String × ErrorCategory) :=
  [("EXECUTION_CRASH", ⟨"BUG", "high", false⟩),
   ("EXECUTION_OOM", ⟨"RESOURCE", "medium", true⟩),
   ("EXECUTION_TIMEOUT", ⟨"RESOURCE", "medium", true⟩),
   ("TOOL_NOT_FOUND", ⟨"CONFIG", "high", false⟩),
   ("INVALID_ARGS", ⟨"INPUT", "low", true⟩),
   ("PERMISSION_DENIED", ⟨"AUTH", "high", false⟩),
   ("NETWORK_ERROR", ⟨"TRANSIENT", "low", true⟩),
   ("DATA_NOT_FOUND", ⟨"DATA", "medium", false⟩),
   ("SCHEMA_VIOLATION", ⟨"CONTRACT", "high", false⟩),
   ("UNKNOWN", ⟨"UNKNOWN", "high", false⟩)]

def lookupCategory : List (String × ErrorCategory) → String → Option ErrorCategory
  | [], _ => none
  | (k, v) :: rest, key => if k = key then some v else lookupCategory rest key

/-- `ERROR_CATEGORIES["UNKNOWN"]`, the fallback entry. -/
def UNKNOWN_CATEGORY : ErrorCategory := ⟨"UNKNOWN", "high", false⟩

/-- Python dict update `{**d, key: v}`: an existing key keeps its position
and gets the new value, a new key is appended. -/
def setKey (kvs : List (String × JValue)) (key : String) (v : JValue) :
    List (String × JValue) :=
  if kvs.any (fun kv => kv.1 == key) then
    kvs.map (fun kv => if kv.1 = key then (key, v) else kv)
  else kvs ++ [(key, v)]

def setKeys : List (String × JValue) → List (String × JValue) →
    List (String × JValue)
  | kvs, [] => kvs
  | kvs, (k, v) :: rest => setKeys (setKey kvs k v) rest

/-- The classifier's audit-log entry. -/
def classifyLog (now : String) (error_code : JValue) (c : ErrorCategory)
    (retryable : JValue) : JValue :=
  .obj [("t", .str now), ("stage", .str "error_classifier"),
        ("message", .str ("[ErrorClassifier] code=" ++ pyStrOfJ error_code ++
          "，category=" ++ c.category ++ "，severity=" ++ c.severity ++
          "，retryable=" ++ pyStrOfJ retryable))]

structure ClassifyUpdate where
  error : List (String × JValue)
  research_log : List JValue

/-- `ERROR_CATEGORIES.get(error_code, ERROR_CATEGORIES["UNKNOWN"])` for
an error object, where `error_code` is `error.get("code", "UNKNOWN")`; a
non-string code is unlisted and falls back to `UNKNOWN` as in Python. -/
def classification_of (kvs : List (String × JValue)) : ErrorCategory :=
  (match jlookupD kvs "code" (.str "UNKNOWN") with
   | .str s => lookupCategory ERROR_CATEGORIES s
   | _ => none).getD UNKNOWN_CATEGORY

/-- `classify_error(state)` with `state.get("error")` passed explicitly
(`none` when the key is absent) and `now` standing for `_now_iso()`.
`none` in the result models the empty update `{}` returned when the error
is absent or falsy. -/
def classify_error (error : Option (List (String × JValue))) (now : String) :
    Option ClassifyUpdate :=
  match error with
  | none => none
  | some kvs =>
    if kvs.isEmpty then none
    else
      let classification := classification_of kvs
      let retry_val := jlookupD kvs "retryable" (.bool classification.retryable)
      some ⟨setKeys kvs
          [("category", .str classification.category),
           ("severity", .str classification.severity),
           ("retryable", retry_val),
           ("classified_at", .str now)],
        [classifyLog now (jlookupD kvs "code" (.str "UNKNOWN"))
          classification retry_val]⟩

/-! #### Lookup behaviour of `setKey`/`setKeys` -/

theorem jlookup_map_setKey (kvs : List (String × JValue)) (key : String)
    (v : JValue) (h : kvs.any (fun kv => kv.1 == key) = true) :
    jlookup (kvs.map fun kv => if kv.1 = key then (key, v) else kv) key =
      some v := by
  induction kvs with
  | nil => simp at h
  | cons kv0 rest ih =>
    obtain ⟨k0, v0⟩ := kv0
    by_cases hk : k0 = key
    · subst hk
      have hmk : (if (k0, v0).1 = k0 then (k0, v) else (k0, v0)) = (k0, v) := by
        simp
      rw [List.map_cons, hmk, jlookup, if_pos rfl]
    · have hmk : (if (k0, v0).1 = key then (key, v) else (k0, v0)) = (k0, v0) := by
        simp [hk]
      rw [List.map_cons, hmk, jlookup, if_neg hk]
      apply ih
      simpa [List.any_cons, hk] using h

theorem jlookup_map_setKey_other (kvs : List (String × JValue)) (key : String)
    (v : JValue) (keyB : String) (h : keyB ≠ key) :
    jlookup (kvs.map fun kv => if kv.1 = key then (key, v) else kv) keyB =
      jlookup kvs keyB := by
  induction kvs with
  | nil => rfl
  | cons kv0 rest ih =>
    obtain ⟨k0, v0⟩ := kv0
    rw [List.map_cons]
    by_cases hk : k0 = key
    · subst hk
      have hmk : (if (k0, v0).1 = k0 then (k0, v) else (k0, v0)) = (k0, v) := by
        simp
      rw [hmk, jlookup, jlookup, if_neg (fun hc => h hc.symm),
        if_neg (fun hc => h hc.symm)]
      exact ih
    · have hmk : (if (k0, v0).1 = key then (key, v) else (k0, v0)) = (k0, v0) := by
        simp [hk]
      rw [hmk, jlookup, jlookup]
      split
      · rfl
      · exact ih

theorem jlookup_append_single (kvs : List (String × JValue)) (key : String)
    (v : JValue) (keyB : String) (h : keyB ≠ key) :
    jlookup (kvs ++ [(key, v)]) keyB = jlookup kvs keyB := by
  induction kvs with
  | nil =>
    simp only [List.nil_append, jlookup]
    rw [if_neg (show ¬key = keyB from fun hc => h hc.symm)]
  | cons kv0 rest ih =>
    obtain ⟨k0, v0⟩ := kv0
    rw [List.cons_append, jlookup, jlookup]
    split
    · rfl
    · exact ih

theorem jlookup_append_single_self (kvs : List (String × JValue)) (key : String)
    (v : JValue) (h : kvs.any (fun kv => kv.1 == key) = false) :
    jlookup (kvs ++ [(key, v)]) key = some v := by
  induction kvs with
  | nil => simp [jlookup]
  | cons kv0 rest ih =>
    obtain ⟨k0, v0⟩ := kv0
    have hk : (k0 == key) = false := by
      by_contra hc
      simp only [Bool.not_eq_false] at hc
      simp [List.any_cons, hc] at h
    rw [List.cons_append, jlookup, if_neg (by simpa using hk)]
    exact ih (by simpa [List.any_cons, hk] using h)

theorem jlookup_setKey_self (kvs : List (String × JValue)) (key : String)
    (v : JValue) : jlookup (setKey kvs key v) key = some v := by
  rw [setKey]
  split
  · exact jlookup_map_setKey kvs key v (by assumption)
  · rename_i hany
    exact jlookup_append_single_self kvs key v
      (by simpa only [Bool.not_eq_true] using hany)

theorem jlookup_setKey_other (kvs : List (String × JValue)) (key : String)
    (v : JValue) (keyB : String) (h : keyB ≠ key) :
    jlookup (setKey kvs key v) keyB = jlookup kvs keyB := by
  rw [setKey]
  split
  · exact jlookup_map_setKey_other kvs key v keyB h
  · exact jlookup_append_single kvs key v keyB h

theorem setKey_isEmpty_false (kvs : List (String × JValue)) (key : String)
    (v : JValue) : (setKey kvs key v).isEmpty = false := by
  rw [setKey]
  split
  · cases kvs with
    | nil => simp at *
    | cons kv0 rest => simp
  · cases kvs with
    | nil => simp
    | cons kv0 rest => simp

/-- The enriched error produced by one classification step. -/
theorem classify_error_eq (kvs : List (String × JValue)) (now : String)
    (h : kvs.isEmpty = false) :
    classify_error (some kvs) now = some
      ⟨setKey (setKey (setKey (setKey kvs
            "category" (.str (classification_of kvs).category))
            "severity" (.str (classification_of kvs).severity))
            "retryable" (jlookupD kvs "retryable"
              (.bool (classification_of kvs).retryable)))
            "classified_at" (.str now),
        [classifyLog now (jlookupD kvs "code" (.str "UNKNOWN"))
          (classification_of kvs)
          (jlookupD kvs "retryable" (.bool (classification_of kvs).retryable))]⟩ := by
  simp only [classify_error, h, Bool.false_eq_true, if_false]
  rfl

/-- C8: classification is idempotent for the `retryable` flag and a pure
function of the input error apart from the fresh timestamp.  `retryable`
is taken from the original error when the key is explicitly set and from
the taxonomy default for the error's code otherwise (with the `UNKNOWN`
fallback); reclassifying an already-classified error (unchanged code)
never changes `retryable`; and two classifications at different
timestamps agree on every key except `classified_at`. -/
theorem C8_classifier_idempotent (kvs : List (String × JValue))
    (now now2 : String) (h : kvs.isEmpty = false) :
    ∃ u u2,
      classify_error (some kvs) now = some u
      ∧ classify_error (some u.error) now2 = some u2
      ∧ jlookup u.error "retryable" =
          some ((jlookup kvs "retryable").getD
            (.bool ((classification_of kvs).retryable)))
      ∧ jlookup u2.error "retryable" = jlookup u.error "retryable"
      ∧ (∀ k, k ≠ "classified_at" → ∀ u3,
          classify_error (some kvs) now2 = some u3 →
          jlookup u3.error k = jlookup u.error k) := by
  have e1 := classify_error_eq kvs now h
  set inner3 := setKey (setKey (setKey kvs
      "category" (.str (classification_of kvs).category))
      "severity" (.str (classification_of kvs).severity))
      "retryable" (jlookupD kvs "retryable"
        (.bool (classification_of kvs).retryable)) with hinner3
  set E := setKey inner3 "classified_at" (.str now) with hE
  have hretr : jlookup E "retryable" =
      some (jlookupD kvs "retryable" (.bool (classification_of kvs).retryable)) := by
    rw [hE, jlookup_setKey_other _ _ _ _ (by decide), hinner3,
      jlookup_setKey_self]
  have hEne : E.isEmpty = false := setKey_isEmpty_false _ _ _
  have e2 := classify_error_eq E now2 hEne
  refine ⟨_, _, e1, e2, ?_, ?_, ?_⟩
  · exact hretr
  · change _ = jlookup E "retryable"
    rw [jlookup_setKey_other _ _ _ _ (by decide), jlookup_setKey_self,
      jlookupD, hretr, Option.getD_some]
  · intro k hk u3 e3
    have e3' := classify_error_eq kvs now2 h
    rw [e3] at e3'
    injection e3' with e3''
    change _ = jlookup E k
    rw [e3'', hE]
    rw [jlookup_setKey_other _ _ _ _ hk, jlookup_setKey_other _ _ _ _ hk]

/-- Witness for `C8_classifier_idempotent` at a concrete error object
with code `NETWORK_ERROR` and no explicit `retryable` key (so the
taxonomy default `true` applies). -/
theorem C8_classifier_idempotent_witness :
    ([(("code" : String), JValue.str "NETWORK_ERROR")].isEmpty = false)
    ∧ ∃ u u2,
      classify_error (some [("code", .str "NETWORK_ERROR")]) "T1" = some u
      ∧ classify_error (some u.error) "T2" = some u2
      ∧ jlookup u.error "retryable" =
          some ((jlookup [("code", .str "NETWORK_ERROR")] "retryable").getD
            (.bool ((classification_of
              [("code", .str "NETWORK_ERROR")]).retryable)))
      ∧ jlookup u2.error "retryable" = jlookup u.error "retryable"
      ∧ (∀ k, k ≠ "classified_at" → ∀ u3,
          classify_error (some [("code", .str "NETWORK_ERROR")]) "T2" =
            some u3 →
          jlookup u3.error k = jlookup u.error k) :=
  ⟨rfl, C8_classifier_idempotent [("code", .str "NETWORK_ERROR")] "T1" "T2" rfl⟩

/-! ### `skills/skill_registry.py` and `skills/skill_router.py` -/

/-- `SkillMeta`, restricted to the fields the Router and Registry lookup
paths observe (`name`, `enabled`, `runner`); the descriptive metadata
fields (category, description, tags, version, …) do not affect routing. -/
structure SkillMeta where
  name : String
  enabled : Bool
  runner : Option (JValue → JValue)

/-- The registry's `_skills` dict as its list of values in insertion
order, keyed by `SkillMeta.name` (a Python dict has unique keys). -/
abbrev SkillRegistry := List SkillMeta

/-- `SkillRegistry.get(name)`. -/
def SkillRegistry.get (reg : SkillRegistry) (name : String) :
    Option SkillMeta :=
  List.find? (fun s => s.name == name) reg

/-- `SkillRegistry.get_runner(name)`:
`skill.runner if skill and skill.enabled else None`. -/
def SkillRegistry.get_runner (reg : SkillRegistry) (name : String) :
    Option (JValue → JValue) :=
  match reg.get name with
  | some skill => if skill.enabled then skill.runner else none
  | none => none

/-- `SkillRegistry.list_all(enabled_only)`. -/
def SkillRegistry.list_all (reg : SkillRegistry) (enabled_only : Bool) :
    List SkillMeta :=
  if enabled_only then List.filter (fun s => s.enabled) reg else reg

/-- `[s.name for s in registry.list_all(enabled_only=True)][:10]`. -/
def available_skills (reg : SkillRegistry) : List String :=
  ((reg.list_all true).map SkillMeta.name).take 10

/-- Python `repr` of a list of strings. -/
def pyReprStrList (l : List String) : String :=
  "[" ++ String.intercalate ", " (l.map fun s => "\x27" ++ s ++ "\x27") ++ "]"

/-- `_make_not_found_envelope(skill_name, registry)`. -/
def _make_not_found_envelope (skill_name : String) (reg : SkillRegistry) :
    JValue :=
  let available := available_skills reg
  .obj [("outputs", .obj [
    ("status", .str "error"),
    ("summary_for_llm", .obj [
      ("result_brief", .null),
      ("structured_data", .null),
      ("artifact_refs", .arr []),
      ("next_step_hint",
        .str ("可用的 Skill 包括：" ++ String.intercalate ", " available)),
      ("error_brief", .str ("Skill \x27" ++ skill_name ++
        "\x27 未找到。请检查 Skill 名称是否正确，或查看可用 Skill 列表。"))]),
    ("full_log", .obj [
      ("research_log", .arr []),
      ("artifacts", .arr []),
      ("provenance", .arr [])]),
    ("error", .obj [
      ("code", .str "TOOL_NOT_FOUND"),
      ("message", .str ("Skill \x27" ++ skill_name ++ "\x27 未在注册中心找到")),
      ("retryable", .bool false),
      ("mitigation", .str ("请使用正确的 Skill 名称，可用列表：" ++
        pyReprStrList available)),
      ("fallback_action", .str "human_review"),
      ("plan_correction_hint", .str ("Skill \x27" ++ skill_name ++
        "\x27 不存在，请从可用列表中选择：" ++ pyReprStrList available))])])]

/-- `_make_disabled_envelope(skill_name)`. -/
def _make_disabled_envelope (skill_name : String) : JValue :=
  .obj [("outputs", .obj [
    ("status", .str "error"),
    ("summary_for_llm", .obj [
      ("result_brief", .null),
      ("structured_data", .null),
      ("artifact_refs", .arr []),
      ("next_step_hint", .str "请联系管理员启用此 Skill，或使用替代 Skill"),
      ("error_brief", .str ("Skill \x27" ++ skill_name ++
        "\x27 当前已禁用，无法执行。"))]),
    ("full_log", .obj [
      ("research_log", .arr []),
      ("artifacts", .arr []),
      ("provenance", .arr [])]),
    ("error", .obj [
      ("code", .str "PERMISSION_DENIED"),
      ("message", .str ("Skill \x27" ++ skill_name ++ "\x27 已被禁用")),
      ("retryable", .bool false),
      ("mitigation", .str "请联系管理员启用此 Skill"),
      ("fallback_action", .str "human_review"),
      ("plan_correction_hint", .str ("Skill \x27" ++ skill_name ++
        "\x27 已禁用，请尝试其他替代方案"))])])]

/-- `_make_invalid_output_envelope(skill_name, actual_output)`. -/
def _make_invalid_output_envelope (skill_name : String) (_actual : JValue) :
    JValue :=
  .obj [("outputs", .obj [
    ("status", .str "error"),
    ("summary_for_llm", .obj [
      ("result_brief", .null),
      ("structured_data", .null),
      ("artifact_refs", .arr []),
      ("next_step_hint", .str "Skill 实现存在 Bug，请联系开发者修复"),
      ("error_brief", .str ("Skill \x27" ++ skill_name ++
        "\x27 返回了非法格式（缺少 \x27outputs\x27 字段）。这是 Skill 实现的 Bug。"))]),
    ("full_log", .obj [
      ("research_log", .arr []),
      ("artifacts", .arr []),
      ("provenance", .arr [])]),
    ("error", .obj [
      ("code", .str "SCHEMA_VIOLATION"),
      ("message", .str ("Skill \x27" ++ skill_name ++ "\x27 返回非 Envelope 格式")),
      ("retryable", .bool false),
      ("mitigation", .str "Skill 实现需修复，确保返回含 \x27outputs\x27 字段的字典"),
      ("fallback_action", .str "human_review"),
      ("plan_correction_hint", .str "此 Skill 存在实现 Bug，请跳过并使用替代方案")])])]

/-- `isinstance(result, dict) and "outputs" in result`. -/
def is_envelope_shaped (v : JValue) : Bool :=
  match v with
  | .obj kvs => kvs.any (fun kv => kv.1 == "outputs")
  | _ => false

/-- `SkillRouter.__call__(skill_name, skill_args)`.  Exceptions raised by
the runner are not caught here (Fix-I catches them in `execute_skill`);
the runner is modelled as the pure value function of this call. -/
def skill_router_call (reg : SkillRegistry) (skill_name : String)
    (skill_args : JValue) : JValue :=
  match reg.get_runner skill_name with
  | none =>
    match reg.get skill_name with
    | some skill =>
      if !skill.enabled then _make_disabled_envelope skill_name
      else _make_not_found_envelope skill_name reg
    | none => _make_not_found_envelope skill_name reg
  | some runner =>
    let result := runner skill_args
    if is_envelope_shaped result then result
    else _make_invalid_output_envelope skill_name result

/-- `envelope["outputs"]["error"]["code"]`, when present. -/
def envelope_error_code (env : JValue) : Option JValue :=
  match env with
  | .obj ekvs =>
    match jlookupD ekvs "outputs" .null with
    | .obj okvs =>
      match jlookupD okvs "error" .null with
      | .obj erkvs => jlookup erkvs "code"
      | _ => none
    | _ => none
  | _ => none

/-- `envelope["outputs"]["summary_for_llm"]["next_step_hint"]`. -/
def envelope_next_step_hint (env : JValue) : Option JValue :=
  match env with
  | .obj ekvs =>
    match jlookupD ekvs "outputs" .null with
    | .obj okvs =>
      match jlookupD okvs "summary_for_llm" .null with
      | .obj skvs => jlookup skvs "next_step_hint"
      | _ => none
    | _ => none
  | _ => none

/-- C9: the Router returns (never raises) a structured error Envelope for
every unresolvable call: an unregistered name yields the not-found
Envelope with code `TOOL_NOT_FOUND` whose next-step hint lists at most 10
names of registered, enabled capabilities; a registered but disabled name
yields the permission-denied Envelope with code `PERMISSION_DENIED`; and
an enabled executable returning a value that is not a dict with an
`outputs` key yields the schema-violation Envelope with code
`SCHEMA_VIOLATION`. -/
theorem C9_router_error_envelopes (reg : SkillRegistry) (name : String)
    (args : JValue) :
    (reg.get name = none →
      skill_router_call reg name args = _make_not_found_envelope name reg
      ∧ envelope_error_code (_make_not_found_envelope name reg) =
          some (.str "TOOL_NOT_FOUND")
      ∧ envelope_next_step_hint (_make_not_found_envelope name reg) =
          some (.str ("可用的 Skill 包括：" ++
            String.intercalate ", " (available_skills reg)))
      ∧ (available_skills reg).length ≤ 10
      ∧ (∀ n ∈ available_skills reg, ∃ s ∈ reg, s.name = n ∧ s.enabled = true))
    ∧ (∀ s, reg.get name = some s → s.enabled = false →
        skill_router_call reg name args = _make_disabled_envelope name
        ∧ envelope_error_code (_make_disabled_envelope name) =
            some (.str "PERMISSION_DENIED"))
    ∧ (∀ s f, reg.get name = some s → s.enabled = true → s.runner = some f →
        is_envelope_shaped (f args) = false →
        skill_router_call reg name args =
          _make_invalid_output_envelope name (f args)
        ∧ envelope_error_code (_make_invalid_output_envelope name (f args)) =
            some (.str "SCHEMA_VIOLATION")) := by
  refine ⟨?_, ?_, ?_⟩
  · intro h
    refine ⟨?_, rfl, rfl, ?_, ?_⟩
    · simp [skill_router_call, SkillRegistry.get_runner, h]
    · rw [available_skills, List.length_take]
      exact min_le_left _ _
    · intro n hn
      rw [available_skills] at hn
      have hn' := List.mem_of_mem_take hn
      rw [List.mem_map] at hn'
      obtain ⟨s, hs, hsn⟩ := hn'
      rw [SkillRegistry.list_all, if_pos rfl] at hs
      exact ⟨s, (List.mem_filter.mp hs).1, hsn,
        by simpa using (List.mem_filter.mp hs).2⟩
  · intro s hs hdis
    refine ⟨?_, rfl⟩
    simp [skill_router_call, SkillRegistry.get_runner, hs, hdis]
  · intro s f hs hen hr hshape
    refine ⟨?_, rfl⟩
    simp [skill_router_call, SkillRegistry.get_runner, hs, hen, hr, hshape]

/-- C10: for a registered, enabled capability whose `runner` field is
`None`, routing returns the not-found Envelope (code `TOOL_NOT_FOUND`),
not the permission-denied one, because `get_runner` returns `None` exactly
when the name is unregistered, the entry is disabled, or its runner is
`None`, and the Router only distinguishes the disabled case afterwards. -/
theorem C10_router_none_runner (reg : SkillRegistry) (name : String)
    (args : JValue) :
    (∀ s, reg.get name = some s → s.enabled = true → s.runner = none →
      skill_router_call reg name args = _make_not_found_envelope name reg
      ∧ envelope_error_code (_make_not_found_envelope name reg) =
          some (.str "TOOL_NOT_FOUND"))
    ∧ (reg.get_runner name = none ↔
        reg.get name = none
        ∨ ∃ s, reg.get name = some s
            ∧ (s.enabled = false ∨ s.runner = none)) := by
  constructor
  · intro s hs hen hr
    refine ⟨?_, rfl⟩
    simp [skill_router_call, SkillRegistry.get_runner, hs, hen, hr]
  · constructor
    · intro h
      cases hg : reg.get name with
      | none => exact Or.inl rfl
      | some s =>
        simp only [SkillRegistry.get_runner, hg] at h
        by_cases hen : s.enabled
        · rw [if_pos hen] at h
          exact Or.inr ⟨s, rfl, Or.inr h⟩
        · exact Or.inr ⟨s, rfl, Or.inl (by simpa using hen)⟩
    · intro h
      rcases h with h | ⟨s, hs, hcase⟩
      · simp [SkillRegistry.get_runner, h]
      · rcases hcase with hdis | hnone
        · simp [SkillRegistry.get_runner, hs, hdis]
        · by_cases hen : s.enabled
          · simp [SkillRegistry.get_runner, hs, hen, hnone]
          · simp [SkillRegistry.get_runner, hs, hen]

/-- Concrete runners and a registry used to witness the Router claims. -/
def demoRunner : JValue → JValue :=
  fun _ => .obj [("outputs", .obj [("status", .str "ok")])]

def badRunner : JValue → JValue := fun _ => .str "oops"

def witRegistry : SkillRegistry :=
  [⟨"tcm.database.herb_query", true, some demoRunner⟩,
   ⟨"tcm.analysis.network_analysis", false, some demoRunner⟩,
   ⟨"tcm.visualization.herb_network_plot", true, none⟩,
   ⟨"tcm.analysis.bad_output", true, some badRunner⟩]

/-- Witness for `C9_router_error_envelopes`: an unregistered name on the
concrete registry. -/
theorem C9_router_error_envelopes_witness :
    SkillRegistry.get witRegistry "tcm.missing" = none
    ∧ (skill_router_call witRegistry "tcm.missing" .null =
        _make_not_found_envelope "tcm.missing" witRegistry
      ∧ envelope_error_code (_make_not_found_envelope "tcm.missing" witRegistry) =
          some (.str "TOOL_NOT_FOUND")
      ∧ envelope_next_step_hint
            (_make_not_found_envelope "tcm.missing" witRegistry) =
          some (.str ("可用的 Skill 包括：" ++
            String.intercalate ", " (available_skills witRegistry)))
      ∧ (available_skills witRegistry).length ≤ 10
      ∧ (∀ n ∈ available_skills witRegistry,
          ∃ s ∈ witRegistry, s.name = n ∧ s.enabled = true)) :=
  ⟨rfl, (C9_router_error_envelopes witRegistry "tcm.missing" .null).1 rfl⟩

/-- Witness for `C10_router_none_runner`: a registered, enabled skill with
`runner = None` routes to the not-found Envelope. -/
theorem C10_router_none_runner_witness :
    SkillRegistry.get witRegistry "tcm.visualization.herb_network_plot" =
      some ⟨"tcm.visualization.herb_network_plot", true, none⟩
    ∧ (skill_router_call witRegistry
          "tcm.visualization.herb_network_plot" .null =
        _make_not_found_envelope "tcm.visualization.herb_network_plot"
          witRegistry
      ∧ envelope_error_code (_make_not_found_envelope
          "tcm.visualization.herb_network_plot" witRegistry) =
          some (.str "TOOL_NOT_FOUND")) :=
  ⟨rfl,
    (C10_router_none_runner witRegistry
        "tcm.visualization.herb_network_plot" .null).1
      ⟨"tcm.visualization.herb_network_plot", true, none⟩ rfl rfl rfl⟩

end Tcmskd
